import Mathlib

/-!
Shallow embedding of `generate_comunity.py` (`modify_excel_file`).

The program loads a spreadsheet, resolves three required columns from the
header row (row 2), samples half of the distinct calendar days for EV-load
injection, and for every data row (rows 3+) with a genuine datetime and a
numeric power value writes a noised (and possibly EV-augmented) power value
rounded to three decimals and a static integer month, skipping all other
rows.  Randomness (the per-row uniform noise factor and `random.sample`)
is modelled by explicit oracle parameters: a factor per data row and a
stream of index picks for the sampler.  Numbers are modelled as exact
rationals.
-/

namespace GenerateComunity

/-- A calendar date, the result of Python `datetime.date()`. -/
structure PyDate where
  year : Nat
  month : Nat
  day : Nat
deriving DecidableEq, Repr

instance : Inhabited PyDate := ⟨⟨1970, 1, 1⟩⟩

/-- A Python `datetime` value: calendar date plus time-of-day fields. -/
structure PyDateTime where
  year : Nat
  month : Nat
  day : Nat
  hour : Nat
  minute : Nat
deriving DecidableEq, Repr

/-- Python `datetime.date()`: the calendar date with the time discarded. -/
def PyDateTime.date (dt : PyDateTime) : PyDate :=
  ⟨dt.year, dt.month, dt.day⟩

/-- A Python `datetime` as constructed by the library always has a month
in 1..12 (and an hour in 0..23); cells read back from a workbook carry
such genuine values. -/
def PyDateTime.Valid (dt : PyDateTime) : Prop :=
  1 ≤ dt.month ∧ dt.month ≤ 12 ∧ dt.hour ≤ 23

instance (dt : PyDateTime) : Decidable dt.Valid := by
  unfold PyDateTime.Valid; infer_instance

/-- The possible values of a spreadsheet cell as seen through openpyxl:
a datetime, a number (`int`/`float`), a Python `bool` (which Python treats
as an `int`), a string, a formula string, or an empty cell (`None`). -/
inductive CellValue where
  | date (dt : PyDateTime)
  | num (q : ℚ)
  | bool (b : Bool)
  | str (s : String)
  | formula (f : String)
  | empty
deriving DecidableEq, Repr

/-- Python `isinstance(v, datetime)`. -/
def CellValue.isDatetime : CellValue → Bool
  | CellValue.date _ => true
  | _ => false

/-- Python `isinstance(v, (int, float))`.  Python `bool` is a subclass of `int`,
so boolean cells pass this check. -/
def CellValue.isNumeric : CellValue → Bool
  | CellValue.num _ => true
  | CellValue.bool _ => true
  | _ => false

/-- The numeric content of a cell value; `True` counts as 1, `False` as 0,
exactly as Python arithmetic treats booleans. -/
def CellValue.toRat : CellValue → ℚ
  | CellValue.num q => q
  | CellValue.bool b => if b then 1 else 0
  | _ => 0

/-- Python `str(v)` for a cell value.  Strings and formula strings render
as themselves; `None` as "None"; booleans as "True"/"False".  The renderings
of numbers and datetimes are abstracted (they never coincide with a header
name, which is all the program compares them against). -/
def pyStr : CellValue → String
  | CellValue.str s => s
  | CellValue.formula f => f
  | CellValue.empty => "None"
  | CellValue.bool true => "True"
  | CellValue.bool false => "False"
  | CellValue.num q => "num " ++ toString q
  | CellValue.date dt =>
      "datetime " ++ toString dt.year ++ "-" ++ toString dt.month ++ "-" ++ toString dt.day

/-- A cell: a value together with its (opaque, passed-through) number
format. -/
structure Cell where
  value : CellValue
  numberFormat : String
deriving DecidableEq, Repr

/-- A missing cell reads back as `None` with the default "General" format. -/
def defaultCell : Cell := ⟨CellValue.empty, "General"⟩

abbrev Row := List Cell

/-- ASCII whitespace, the characters Python `str.strip()` removes. -/
def isSpaceChar (c : Char) : Bool :=
  c == ' ' || c == '\t' || c == '\n' || c == '\r'

/-- Python `str.strip()`: drop leading and trailing whitespace. -/
def pyStrip (s : String) : String :=
  ⟨((s.data.dropWhile isSpaceChar).reverse.dropWhile isSpaceChar).reverse⟩

/-- Python `str(cell.value).strip()`, the text used for header comparison. -/
def cellText (c : Cell) : String := pyStrip (pyStr c.value)

/-- Configuration surface of `modify_excel_file`. -/
structure Params where
  variationPercent : ℚ
  evProfileKw : ℚ
  evStart : Nat
  evEnd : Nat
deriving Repr

/-- Default configuration: ±10% noise, 3.6 kW EV load, 18:00–22:00 window. -/
def defaultParams : Params := ⟨10, 18 / 5, 18, 22⟩

/-- Python `round(x, 3)` at integer scale: round to the nearest integer,
ties to even (banker's rounding). -/
def roundHalfEvenZ (q : ℚ) : ℤ :=
  if q - ⌊q⌋ < 1 / 2 then ⌊q⌋
  else if (1 : ℚ) / 2 < q - ⌊q⌋ then ⌊q⌋ + 1
  else if ⌊q⌋ % 2 = 0 then ⌊q⌋ else ⌊q⌋ + 1

/-- Python `round(x, 3)`: round to three decimal places. -/
def round3 (q : ℚ) : ℚ := (roundHalfEvenZ (q * 1000) : ℚ) / 1000

/-- Header map lookup.  The Python dict comprehension
`{str(cell.value).strip(): idx for idx, cell in enumerate(ws[2], start=1)}`
lets a later duplicate key overwrite an earlier one, so a name maps to the
RIGHTMOST (1-based) column whose trimmed text equals it.  `start` is the
1-based index of the first cell of `row`. -/
def headerColAux (name : String) : List Cell → Nat → Option Nat
  | [], _ => none
  | c :: rest, start =>
      match headerColAux name rest (start + 1) with
      | some j => some j
      | none => if cellText c = name then some start else none

/-- Lookup `header_map.get(name)`: the column index a header name resolves to. -/
def headerCol (hdr : List Cell) (name : String) : Option Nat :=
  headerColAux name hdr 1

def dateHeader : String := "Date and time"

def powerHeader : String := "Active power (kW)"

def monthHeader : String := "month"

/-- Message of the `ValueError` raised on a missing required header. -/
def headerErrMsg : String :=
  "Row 2 must contain exactly these three headers: Date and time, Active power (kW), month."

/-- The calendar dates of the datetime-valued cells of the date column,
one entry per data row (`unique_days` before set-collapse). -/
def collectDays (dataRows : List Row) (dateCol : Nat) : List PyDate :=
  dataRows.filterMap (fun row =>
    match (row.getD (dateCol - 1) defaultCell).value with
    | CellValue.date dt => some dt.date
    | _ => none)

/-- Lexicographic comparison on calendar dates, used by `sorted(unique_days)`. -/
def pyDateLeB (a b : PyDate) : Bool :=
  decide (a.year < b.year) ||
    (decide (a.year = b.year) &&
      (decide (a.month < b.month) ||
        (decide (a.month = b.month) && decide (a.day ≤ b.day))))

/-- Python `sorted(unique_days)`. -/
def daySort (l : List PyDate) : List PyDate :=
  List.insertionSort (fun a b => pyDateLeB a b = true) l

/-- Python `random.sample(pop, k)` modelled with an explicit oracle of index
picks: repeatedly choose a remaining element (by the next pick, reduced
mod the current population size) and remove it, `k` times.  This captures
exactly the library's contract — `k` distinct positions drawn without
replacement — for every oracle.  (The library raises when `k` exceeds the
population size; the model returns a shorter list, a case the program
never exercises since it always passes `k = n // 2`.) -/
def sample : List PyDate → Nat → List ℕ → List PyDate
  | _, 0, _ => []
  | [], _ + 1, _ => []
  | a :: rest, k + 1, picks =>
      let pop := a :: rest
      let i := picks.headD 0 % pop.length
      pop.getD i default :: sample (pop.eraseIdx i) k picks.tail

/-- The distinct calendar days of the data rows (`unique_days` as a set,
represented as a duplicate-free list). -/
def uniqueDaysOf (ws : List Row) (dateCol : Nat) : List PyDate :=
  (collectDays (ws.drop 2) dateCol).dedup

/-- The assignment `ev_days = random.sample(sorted(unique_days), k=int(len(unique_days)*0.5))`.
`int(n * 0.5)` truncates, i.e. floor division by 2. -/
def evDaysOf (picks : List ℕ) (ws : List Row) (dateCol : Nat) : List PyDate :=
  sample (daySort (uniqueDaysOf ws dateCol)) ((uniqueDaysOf ws dateCol).length / 2) picks

/-- The EV-injection condition of the row loop:
`(row_date in ev_days) and (ev_hours[0] <= row_hour < ev_hours[1])`. -/
def evApplies (p : Params) (evDays : List PyDate) (dt : PyDateTime) : Prop :=
  dt.date ∈ evDays ∧ p.evStart ≤ dt.hour ∧ dt.hour < p.evEnd

instance (p : Params) (evDays : List PyDate) (dt : PyDateTime) :
    Decidable (evApplies p evDays dt) := by
  unfold evApplies; infer_instance

/-- Overwrite the value of the cell at (0-based) index `i`, keeping its
number format (the code saves and restores `number_format` around the
write). Out-of-range writes leave the row unchanged (`iter_rows` pads rows,
so the program never hits that case). -/
def setCellValue (row : Row) (i : Nat) (v : CellValue) : Row :=
  row.set i { row.getD i defaultCell with value := v }

/-- The body of the per-row loop of `modify_excel_file` for one data row:
skip unless the date cell is a datetime and the power cell numeric;
otherwise write the rounded noised (and possibly EV-augmented) power and
the static integer month.  `factor` is this row's drawn noise factor. -/
def transformRow (p : Params) (evDays : List PyDate) (factor : ℚ)
    (dateCol powerCol monthCol : Nat) (row : Row) : Row :=
  let dateCell := row.getD (dateCol - 1) defaultCell
  let powerCell := row.getD (powerCol - 1) defaultCell
  match dateCell.value with
  | CellValue.date dt =>
      if powerCell.value.isNumeric then
        let basePower := powerCell.value.toRat
        let noised := basePower * factor
        let newPower :=
          if evApplies p evDays dt then noised + p.evProfileKw else noised
        let row1 := setCellValue row (powerCol - 1) (CellValue.num (round3 newPower))
        setCellValue row1 (monthCol - 1) (CellValue.num dt.date.month)
      else row
  | _ => row

/-- The row loop over all data rows; `n` is the 0-based index of the first
row of `dataRows` among the data rows, used to address the factor oracle. -/
def transformRows (p : Params) (evDays : List PyDate) (factors : ℕ → ℚ)
    (dateCol powerCol monthCol : Nat) : Nat → List Row → List Row
  | _, [] => []
  | n, r :: rs =>
      transformRow p evDays (factors n) dateCol powerCol monthCol r ::
        transformRows p evDays factors dateCol powerCol monthCol (n + 1) rs

/-- The whole of `modify_excel_file` on an in-memory sheet (a list of rows,
index 0 being spreadsheet row 1): resolve the three headers from row 2,
raise `ValueError` if any is missing, otherwise sample the EV days and
rewrite the data rows.  `Except.ok` is the sheet saved to the output file;
`Except.error` means the exception propagated and no file was written. -/
def modify_excel_file (p : Params) (factors : ℕ → ℚ) (picks : List ℕ)
    (ws : List Row) : Except String (List Row) :=
  let hdr := ws.getD 1 []
  match headerCol hdr dateHeader, headerCol hdr powerHeader, headerCol hdr monthHeader with
  | some dateCol, some powerCol, some monthCol =>
      let evDays := evDaysOf picks ws dateCol
      Except.ok
        (ws.take 2 ++
          transformRows p evDays factors dateCol powerCol monthCol 0 (ws.drop 2))
  | _, _, _ => Except.error headerErrMsg

/-- A data row the loop skips: date cell not a datetime, or power cell not
numeric. -/
def rowSkipped (dateCol powerCol : Nat) (row : Row) : Prop :=
  (row.getD (dateCol - 1) defaultCell).value.isDatetime = false ∨
    (row.getD (powerCol - 1) defaultCell).value.isNumeric = false

instance (dateCol powerCol : Nat) (row : Row) :
    Decidable (rowSkipped dateCol powerCol row) := by
  unfold rowSkipped; infer_instance

/-! ### Bounds for the rounding function -/

theorem roundHalfEvenZ_bounds (q : ℚ) :
    q - 1 / 2 ≤ (roundHalfEvenZ q : ℚ) ∧ (roundHalfEvenZ q : ℚ) ≤ q + 1 / 2 := by
  have h1 : ((⌊q⌋ : ℤ) : ℚ) ≤ q := Int.floor_le q
  have h2 : q < ((⌊q⌋ : ℤ) : ℚ) + 1 := Int.lt_floor_add_one q
  unfold roundHalfEvenZ
  split_ifs <;> constructor <;> push_cast <;> linarith

theorem round3_bounds (q : ℚ) :
    q - 1 / 2000 ≤ round3 q ∧ round3 q ≤ q + 1 / 2000 := by
  obtain ⟨h1, h2⟩ := roundHalfEvenZ_bounds (q * 1000)
  unfold round3
  constructor <;> linarith

/-! ### Cell-write lemmas -/

theorem setCellValue_length (row : Row) (i : Nat) (v : CellValue) :
    (setCellValue row i v).length = row.length :=
  List.length_set row i _

theorem getD_setCellValue_ne (row : Row) {i j : Nat} (v : CellValue) (h : i ≠ j) :
    (setCellValue row i v).getD j defaultCell = row.getD j defaultCell := by
  unfold setCellValue
  simp [List.getD_eq_getElem?_getD, List.getElem?_set_ne h]

theorem getD_setCellValue_self (row : Row) {i : Nat} (v : CellValue) (h : i < row.length) :
    (setCellValue row i v).getD i defaultCell =
      { row.getD i defaultCell with value := v } := by
  unfold setCellValue
  rw [List.getD_eq_getElem?_getD, List.getElem?_set_self h]
  rfl

/-! ### Row-transformation lemmas -/

theorem transformRow_eq (p : Params) (evDays : List PyDate) (factor : ℚ)
    (dc pc mc : Nat) (row : Row) (dt : PyDateTime)
    (hd : (row.getD (dc - 1) defaultCell).value = CellValue.date dt)
    (hp : (row.getD (pc - 1) defaultCell).value.isNumeric = true) :
    transformRow p evDays factor dc pc mc row =
      setCellValue
        (setCellValue row (pc - 1)
          (CellValue.num (round3 ((row.getD (pc - 1) defaultCell).value.toRat * factor +
            (if evApplies p evDays dt then p.evProfileKw else 0)))))
        (mc - 1) (CellValue.num dt.date.month) := by
  simp only [transformRow]
  rw [hd]
  rw [List.getD_eq_getElem?_getD] at hp
  by_cases hev : evApplies p evDays dt <;> simp [hp, hev]

theorem transformRow_skip (p : Params) (evDays : List PyDate) (factor : ℚ)
    (dc pc mc : Nat) (row : Row) (h : rowSkipped dc pc row) :
    transformRow p evDays factor dc pc mc row = row := by
  simp only [transformRow]
  rcases h with h | h
  · cases hv : (row.getD (dc - 1) defaultCell).value <;>
      simp_all [CellValue.isDatetime]
  · cases hv : (row.getD (dc - 1) defaultCell).value <;> simp_all

theorem transformRow_length (p : Params) (evDays : List PyDate) (factor : ℚ)
    (dc pc mc : Nat) (row : Row) :
    (transformRow p evDays factor dc pc mc row).length = row.length := by
  simp only [transformRow]
  cases (row.getD (dc - 1) defaultCell).value <;> simp only []
  case date dt =>
    split
    · rw [setCellValue_length, setCellValue_length]
    · rfl

theorem transformRow_frame (p : Params) (evDays : List PyDate) (factor : ℚ)
    (dc pc mc : Nat) (row : Row) (j : Nat) (hj1 : j ≠ pc - 1) (hj2 : j ≠ mc - 1) :
    (transformRow p evDays factor dc pc mc row).getD j defaultCell =
      row.getD j defaultCell := by
  simp only [transformRow]
  cases (row.getD (dc - 1) defaultCell).value <;> simp only []
  case date dt =>
    split
    · rw [getD_setCellValue_ne _ _ (Ne.symm hj2), getD_setCellValue_ne _ _ (Ne.symm hj1)]
    · rfl

theorem transformRow_power (p : Params) (evDays : List PyDate) (factor : ℚ)
    (dc pc mc : Nat) (row : Row) (dt : PyDateTime)
    (hd : (row.getD (dc - 1) defaultCell).value = CellValue.date dt)
    (hp : (row.getD (pc - 1) defaultCell).value.isNumeric = true)
    (hlen : pc - 1 < row.length) (hne : mc - 1 ≠ pc - 1) :
    ((transformRow p evDays factor dc pc mc row).getD (pc - 1) defaultCell).value =
      CellValue.num (round3 ((row.getD (pc - 1) defaultCell).value.toRat * factor +
        (if evApplies p evDays dt then p.evProfileKw else 0))) := by
  rw [transformRow_eq p evDays factor dc pc mc row dt hd hp,
    getD_setCellValue_ne _ _ hne, getD_setCellValue_self _ _ hlen]

theorem transformRow_month (p : Params) (evDays : List PyDate) (factor : ℚ)
    (dc pc mc : Nat) (row : Row) (dt : PyDateTime)
    (hd : (row.getD (dc - 1) defaultCell).value = CellValue.date dt)
    (hp : (row.getD (pc - 1) defaultCell).value.isNumeric = true)
    (hmlen : mc - 1 < row.length) :
    ((transformRow p evDays factor dc pc mc row).getD (mc - 1) defaultCell).value =
      CellValue.num dt.date.month := by
  rw [transformRow_eq p evDays factor dc pc mc row dt hd hp,
    getD_setCellValue_self _ _ (by rw [setCellValue_length]; exact hmlen)]

/-! ### Loop lemmas -/

theorem transformRows_getElem? (p : Params) (evDays : List PyDate) (factors : ℕ → ℚ)
    (dc pc mc : Nat) (rs : List Row) (n i : Nat) :
    (transformRows p evDays factors dc pc mc n rs)[i]? =
      (rs[i]?).map (transformRow p evDays (factors (n + i)) dc pc mc) := by
  induction rs generalizing n i with
  | nil => simp [transformRows]
  | cons r rest ih =>
      cases i with
      | zero => simp [transformRows]
      | succ i =>
          simp only [transformRows, List.getElem?_cons_succ]
          rw [ih]
          have he : n + 1 + i = n + (i + 1) := by omega
          rw [he]

theorem transformRows_length (p : Params) (evDays : List PyDate) (factors : ℕ → ℚ)
    (dc pc mc : Nat) (rs : List Row) (n : Nat) :
    (transformRows p evDays factors dc pc mc n rs).length = rs.length := by
  induction rs generalizing n with
  | nil => rfl
  | cons r rest ih => simp [transformRows, ih]

/-! ### Sampler lemmas -/

theorem getElem_not_mem_eraseIdx {α : Type} (l : List α) (i : Nat)
    (hn : l.Nodup) (hi : i < l.length) : l[i] ∉ l.eraseIdx i := by
  induction l generalizing i with
  | nil => simp at hi
  | cons a t ih =>
      cases i with
      | zero =>
          simp only [List.eraseIdx_cons_zero, List.getElem_cons_zero]
          exact (List.nodup_cons.mp hn).1
      | succ j =>
          have hj : j < t.length := by simpa using hi
          simp only [List.eraseIdx_cons_succ, List.getElem_cons_succ, List.mem_cons]
          push_neg
          refine ⟨fun he => ?_, ih j (List.nodup_cons.mp hn).2 hj⟩
          exact absurd (he ▸ List.getElem_mem hj) (List.nodup_cons.mp hn).1

theorem sample_length (k : Nat) (pop : List PyDate) (picks : List ℕ)
    (h : k ≤ pop.length) : (sample pop k picks).length = k := by
  induction k generalizing pop picks with
  | zero => simp [sample]
  | succ k ih =>
      cases pop with
      | nil => simp at h
      | cons a rest =>
          have hk : k ≤ rest.length := by
            simp only [List.length_cons] at h
            omega
          have hi : picks.headD 0 % (rest.length + 1) < rest.length + 1 :=
            Nat.mod_lt _ (by omega)
          have hlen : ((a :: rest).eraseIdx (picks.headD 0 % (rest.length + 1))).length =
              rest.length := by
            rw [List.length_eraseIdx, if_pos (by simpa using hi)]
            simp
          simp only [sample, List.length_cons]
          rw [ih _ _ (by rw [hlen]; exact hk)]

theorem sample_mem (k : Nat) (pop : List PyDate) (picks : List ℕ) (x : PyDate)
    (hx : x ∈ sample pop k picks) : x ∈ pop := by
  induction k generalizing pop picks with
  | zero => simp [sample] at hx
  | succ k ih =>
      cases pop with
      | nil => simp [sample] at hx
      | cons a rest =>
          simp only [sample, List.mem_cons] at hx
          have hi : picks.headD 0 % (a :: rest).length < (a :: rest).length :=
            Nat.mod_lt _ (by simp)
          rcases hx with hx | hx
          · rw [List.getD_eq_getElem _ _ hi] at hx
            exact hx ▸ List.getElem_mem hi
          · exact (List.eraseIdx_sublist (a :: rest) _).subset (ih _ _ hx)

theorem sample_nodup (k : Nat) (pop : List PyDate) (picks : List ℕ)
    (h : pop.Nodup) : (sample pop k picks).Nodup := by
  induction k generalizing pop picks with
  | zero => simp [sample]
  | succ k ih =>
      cases pop with
      | nil => simp [sample]
      | cons a rest =>
          simp only [sample]
          have hi : picks.headD 0 % (a :: rest).length < (a :: rest).length :=
            Nat.mod_lt _ (by simp)
          refine List.Nodup.cons ?_ (ih _ _ ((List.eraseIdx_sublist _ _).nodup h))
          intro hmem
          have hmem2 := sample_mem _ _ _ _ hmem
          rw [List.getD_eq_getElem _ _ hi] at hmem2
          exact getElem_not_mem_eraseIdx _ _ h hi hmem2

/-! ### Whole-run lemmas -/

theorem modify_ok (p : Params) (factors : ℕ → ℚ) (picks : List ℕ) (ws : List Row)
    (dc pc mc : Nat)
    (hd : headerCol (ws.getD 1 []) dateHeader = some dc)
    (hp : headerCol (ws.getD 1 []) powerHeader = some pc)
    (hm : headerCol (ws.getD 1 []) monthHeader = some mc) :
    modify_excel_file p factors picks ws =
      Except.ok
        (ws.take 2 ++
          transformRows p (evDaysOf picks ws dc) factors dc pc mc 0 (ws.drop 2)) := by
  simp only [modify_excel_file]
  rw [List.getD_eq_getElem?_getD] at hd hp hm
  simp [hd, hp, hm]

theorem modify_error (p : Params) (factors : ℕ → ℚ) (picks : List ℕ) (ws : List Row)
    (h : headerCol (ws.getD 1 []) dateHeader = none ∨
      headerCol (ws.getD 1 []) powerHeader = none ∨
      headerCol (ws.getD 1 []) monthHeader = none) :
    modify_excel_file p factors picks ws = Except.error headerErrMsg := by
  simp only [modify_excel_file]
  rcases h with h | h | h <;> rw [List.getD_eq_getElem?_getD] at h <;>
    cases h1 : headerCol ((ws[1]?).getD []) dateHeader <;>
    cases h2 : headerCol ((ws[1]?).getD []) powerHeader <;>
    cases h3 : headerCol ((ws[1]?).getD []) monthHeader <;>
    simp_all

theorem output_getElem? (p : Params) (evDays : List PyDate) (factors : ℕ → ℚ)
    (dc pc mc : Nat) (ws : List Row) (i : Nat) :
    (ws.take 2 ++ transformRows p evDays factors dc pc mc 0 (ws.drop 2))[i]? =
      if i < 2 then ws[i]?
      else (ws[i]?).map (transformRow p evDays (factors (i - 2)) dc pc mc) := by
  by_cases hi : i < 2
  · rw [if_pos hi]
    by_cases hwi : i < (ws.take 2).length
    · rw [List.getElem?_append_left hwi, List.getElem?_take, if_pos hi]
    · have hle : ws.length ≤ i := by
        rw [List.length_take] at hwi
        omega
      rw [List.getElem?_append_right (by omega), List.getElem?_eq_none hle,
        List.getElem?_eq_none]
      rw [transformRows_length, List.length_drop]
      omega
  · rw [if_neg hi]
    have hlen2 : (ws.take 2).length ≤ i := by
      rw [List.length_take]
      omega
    rw [List.getElem?_append_right hlen2, transformRows_getElem?, List.getElem?_drop]
    by_cases hws : 2 ≤ ws.length
    · have ht2 : (ws.take 2).length = 2 := by
        rw [List.length_take]
        omega
      rw [ht2]
      have h2i : 2 + (i - 2) = i := by omega
      rw [h2i]
      have h0i : 0 + (i - 2) = i - 2 := by omega
      rw [h0i]
    · rw [List.getElem?_eq_none (show ws.length ≤ 2 + (i - (ws.take 2).length) by omega),
        List.getElem?_eq_none (show ws.length ≤ i by omega),
        Option.map_none', Option.map_none']

theorem modify_excel_file_getElem? (p : Params) (factors : ℕ → ℚ) (picks : List ℕ)
    (ws : List Row) (dc pc mc : Nat) (out : List Row)
    (hd : headerCol (ws.getD 1 []) dateHeader = some dc)
    (hp : headerCol (ws.getD 1 []) powerHeader = some pc)
    (hm : headerCol (ws.getD 1 []) monthHeader = some mc)
    (hout : modify_excel_file p factors picks ws = Except.ok out) (i : Nat) :
    out[i]? = if i < 2 then ws[i]?
      else (ws[i]?).map
        (transformRow p (evDaysOf picks ws dc) (factors (i - 2)) dc pc mc) := by
  rw [modify_ok p factors picks ws dc pc mc hd hp hm] at hout
  injection hout with hout
  subst hout
  exact output_getElem? p (evDaysOf picks ws dc) factors dc pc mc ws i

/-! ### Concrete fixtures used by counterexamples and witnesses -/

/-- A valid data row holding the tiny power reading 0.0001 kW. -/
def c1Row : Row :=
  [⟨CellValue.date ⟨2024, 1, 1, 0, 0⟩, "General"⟩,
   ⟨CellValue.num (1 / 10000), "0.000"⟩,
   ⟨CellValue.formula "=MONTH(A3)", "General"⟩]

/-- A valid data row holding the power reading 2 kW. -/
def cw1Row : Row :=
  [⟨CellValue.date ⟨2024, 6, 15, 12, 0⟩, "General"⟩,
   ⟨CellValue.num 2, "0.00"⟩,
   ⟨CellValue.num 0, "General"⟩]

/-- A valid data row timestamped inside the default EV window. -/
def cw2Row : Row :=
  [⟨CellValue.date ⟨2024, 1, 10, 18, 30⟩, "General"⟩,
   ⟨CellValue.num 2, "0.00"⟩,
   ⟨CellValue.num 0, "General"⟩]

/-- A row whose date cell holds a string, hence is skipped. -/
def c3Row : Row :=
  [⟨CellValue.str "n/a", "General"⟩,
   ⟨CellValue.num 5, "0.00"⟩,
   ⟨CellValue.num 7, "General"⟩]

/-- A sheet whose header row lacks the required "month" header. -/
def c4Sheet : List Row :=
  [[⟨CellValue.str "caption", "General"⟩],
   [⟨CellValue.str "Date and time", "General"⟩,
    ⟨CellValue.str "Active power (kW)", "General"⟩],
   [⟨CellValue.date ⟨2024, 1, 1, 0, 0⟩, "General"⟩, ⟨CellValue.num 1, "General"⟩]]

/-- A valid data row holding the negative power reading −1 kW. -/
def c1NegRow : Row :=
  [⟨CellValue.date ⟨2024, 1, 1, 0, 0⟩, "General"⟩,
   ⟨CellValue.num (-1), "0.000"⟩,
   ⟨CellValue.formula "=MONTH(A3)", "General"⟩]

/-- A valid data row timestamped inside the EV window, power 1 kW. -/
def c1EvRow : Row :=
  [⟨CellValue.date ⟨2024, 1, 1, 18, 0⟩, "General"⟩,
   ⟨CellValue.num 1, "0.000"⟩,
   ⟨CellValue.formula "=MONTH(A3)", "General"⟩]

/-- A configuration with variation 0 % and a negative EV load of −10 kW. -/
def pC1ev : Params := ⟨0, -10, 18, 22⟩

/-! ### Claims -/

/-- C1 counterexample, three runs falsifying the claimed interval
containment of the written value, one per failure mode.
(1) Rounding: power 0.0001, variation 10 %, no EV, drawn factor 1
(inside [0.9, 1.1]): the written power is round(0.0001, 3) = 0, OUTSIDE
the claimed interval [0.0001·0.9 − 0, 0.0001·1.1 + 0].
(2) Negative reading: power −1, variation 10 %, no EV, factor 1: the
written power is −1, outside the claimed interval [−0.9, −1.1], whose
endpoints invert for a negative original.
(3) Negative configured EV load: power 1, variation 0 %, ev_profile_kw
= −10 injected, factor 1: the written power is −9, outside the claimed
interval [1 − (−10), 1 + (−10)] = [11, −9]. Each failure mode forces
its part of the amendment: the ±0.0005 rounding widening, the
nonnegative-reading proviso and the nonnegative-EV-load proviso. -/
theorem C1_counterexample :
    (((transformRow ⟨10, 18 / 5, 18, 22⟩ [] 1 1 2 3 c1Row).getD 1 defaultCell).value =
        CellValue.num 0 ∧
      ¬((1 / 10000 : ℚ) * (1 - 10 / 100) - 0 ≤ 0 ∧
        (0 : ℚ) ≤ (1 / 10000 : ℚ) * (1 + 10 / 100) + 0)) ∧
    (((transformRow ⟨10, 18 / 5, 18, 22⟩ [] 1 1 2 3 c1NegRow).getD 1 defaultCell).value =
        CellValue.num (-1) ∧
      ¬((-1 : ℚ) * (1 - 10 / 100) - 0 ≤ -1 ∧
        (-1 : ℚ) ≤ (-1 : ℚ) * (1 + 10 / 100) + 0)) ∧
    (((transformRow pC1ev [⟨2024, 1, 1⟩] 1 1 2 3 c1EvRow).getD 1 defaultCell).value =
        CellValue.num (-9) ∧
      ¬((1 : ℚ) * (1 - 0 / 100) - (-10) ≤ -9 ∧
        (-9 : ℚ) ≤ (1 : ℚ) * (1 + 0 / 100) + (-10))) := by
  refine ⟨⟨?_, by norm_num⟩, ⟨?_, by norm_num⟩, ⟨?_, by norm_num⟩⟩
  · have h1 := transformRow_power ⟨10, 18 / 5, 18, 22⟩ [] 1 1 2 3 c1Row
      ⟨2024, 1, 1, 0, 0⟩ (by decide) (by decide) (by decide) (by decide)
    rw [h1, if_neg (by decide : ¬ evApplies ⟨10, 18 / 5, 18, 22⟩ [] ⟨2024, 1, 1, 0, 0⟩)]
    have htr : (c1Row.getD 1 defaultCell).value.toRat = 1 / 10000 := rfl
    have h0 : round3 (1 / 10000 * 1 + 0) = 0 := by
      unfold round3 roundHalfEvenZ
      norm_num
    rw [htr, h0]
  · have h1 := transformRow_power ⟨10, 18 / 5, 18, 22⟩ [] 1 1 2 3 c1NegRow
      ⟨2024, 1, 1, 0, 0⟩ (by decide) (by decide) (by decide) (by decide)
    rw [h1, if_neg (by decide : ¬ evApplies ⟨10, 18 / 5, 18, 22⟩ [] ⟨2024, 1, 1, 0, 0⟩)]
    have htr : (c1NegRow.getD 1 defaultCell).value.toRat = -1 := rfl
    have h0 : round3 (-1 * 1 + 0) = -1 := by
      unfold round3 roundHalfEvenZ
      norm_num
    rw [htr, h0]
  · have h1 := transformRow_power pC1ev [⟨2024, 1, 1⟩] 1 1 2 3 c1EvRow
      ⟨2024, 1, 1, 18, 0⟩ (by decide) (by decide) (by decide) (by decide)
    rw [h1, if_pos (by decide : evApplies pC1ev [⟨2024, 1, 1⟩] ⟨2024, 1, 1, 18, 0⟩)]
    have htr : (c1EvRow.getD 1 defaultCell).value.toRat = 1 := rfl
    have hE : pC1ev.evProfileKw = -10 := rfl
    have h0 : round3 (1 * 1 + -10) = -9 := by
      unfold round3 roundHalfEvenZ
      norm_num
    rw [htr, hE, h0]

/-- C1 (amended): for EVERY valid data row — any numeric power, negative
or boolean included, and any drawn factor — the written power equals
exactly round(original·factor + ev, 3) with ev the EV load if injected
and 0 otherwise.  The interval containment holds in the form the three
counterexample runs force: for a nonnegative original reading, a
nonnegative configured EV load, and a factor in [1 − v/100, 1 + v/100],
the written value lies within the claimed interval
[original·(1 − v/100) − ev, original·(1 + v/100) + ev] widened by the
maximal 3-decimal rounding error 1/2000 on each side. -/
theorem C1_power_noise_bounds (p : Params) (evDays : List PyDate) (factor : ℚ)
    (dc pc mc : Nat) (row : Row) (dt : PyDateTime)
    (hd : (row.getD (dc - 1) defaultCell).value = CellValue.date dt)
    (hp : (row.getD (pc - 1) defaultCell).value.isNumeric = true)
    (hlen : pc - 1 < row.length) (hne : mc - 1 ≠ pc - 1) :
    ((transformRow p evDays factor dc pc mc row).getD (pc - 1) defaultCell).value =
      CellValue.num (round3 ((row.getD (pc - 1) defaultCell).value.toRat * factor +
        (if evApplies p evDays dt then p.evProfileKw else 0))) ∧
    (0 ≤ (row.getD (pc - 1) defaultCell).value.toRat → 0 ≤ p.evProfileKw →
      1 - p.variationPercent / 100 ≤ factor → factor ≤ 1 + p.variationPercent / 100 →
      (row.getD (pc - 1) defaultCell).value.toRat * (1 - p.variationPercent / 100) -
          (if evApplies p evDays dt then p.evProfileKw else 0) - 1 / 2000 ≤
        round3 ((row.getD (pc - 1) defaultCell).value.toRat * factor +
          (if evApplies p evDays dt then p.evProfileKw else 0)) ∧
      round3 ((row.getD (pc - 1) defaultCell).value.toRat * factor +
          (if evApplies p evDays dt then p.evProfileKw else 0)) ≤
        (row.getD (pc - 1) defaultCell).value.toRat * (1 + p.variationPercent / 100) +
          (if evApplies p evDays dt then p.evProfileKw else 0) + 1 / 2000) := by
  refine ⟨transformRow_power p evDays factor dc pc mc row dt hd hp hlen hne,
    fun hq hev hf1 hf2 => ?_⟩
  have hev0 : 0 ≤ (if evApplies p evDays dt then p.evProfileKw else 0) := by
    split_ifs
    · exact hev
    · exact le_refl 0
  have hb := round3_bounds ((row.getD (pc - 1) defaultCell).value.toRat * factor +
    (if evApplies p evDays dt then p.evProfileKw else 0))
  have hmul1 : (row.getD (pc - 1) defaultCell).value.toRat * (1 - p.variationPercent / 100) ≤
      (row.getD (pc - 1) defaultCell).value.toRat * factor :=
    mul_le_mul_of_nonneg_left hf1 hq
  have hmul2 : (row.getD (pc - 1) defaultCell).value.toRat * factor ≤
      (row.getD (pc - 1) defaultCell).value.toRat * (1 + p.variationPercent / 100) :=
    mul_le_mul_of_nonneg_left hf2 hq
  exact ⟨by linarith [hb.1], by linarith [hb.2]⟩

theorem C1_witness :
    ((transformRow defaultParams [] 1 1 2 3 cw1Row).getD 1 defaultCell).value =
      CellValue.num (round3 ((cw1Row.getD 1 defaultCell).value.toRat * 1 +
        (if evApplies defaultParams [] ⟨2024, 6, 15, 12, 0⟩
         then defaultParams.evProfileKw else 0))) :=
  (C1_power_noise_bounds defaultParams [] 1 1 2 3 cw1Row ⟨2024, 6, 15, 12, 0⟩
    (by decide) (by decide) (by decide) (by decide)).1

/-- C2: for a valid data row the EV load is added exactly when its
calendar date is in the EV-day set AND its hour lies in the half-open
window [start, end); in particular a row on an EV day whose hour equals
the end hour receives no EV load. -/
theorem C2_ev_window (p : Params) (evDays : List PyDate) (factor : ℚ)
    (dc pc mc : Nat) (row : Row) (dt : PyDateTime)
    (hd : (row.getD (dc - 1) defaultCell).value = CellValue.date dt)
    (hp : (row.getD (pc - 1) defaultCell).value.isNumeric = true)
    (hlen : pc - 1 < row.length) (hne : mc - 1 ≠ pc - 1) :
    ((transformRow p evDays factor dc pc mc row).getD (pc - 1) defaultCell).value =
      CellValue.num (round3 ((row.getD (pc - 1) defaultCell).value.toRat * factor +
        (if dt.date ∈ evDays ∧ p.evStart ≤ dt.hour ∧ dt.hour < p.evEnd
         then p.evProfileKw else 0))) ∧
    (dt.hour = p.evEnd →
      ((transformRow p evDays factor dc pc mc row).getD (pc - 1) defaultCell).value =
        CellValue.num (round3 ((row.getD (pc - 1) defaultCell).value.toRat * factor))) := by
  have h1 := transformRow_power p evDays factor dc pc mc row dt hd hp hlen hne
  simp only [evApplies] at h1
  refine ⟨h1, fun hend => ?_⟩
  have hno : ¬(dt.date ∈ evDays ∧ p.evStart ≤ dt.hour ∧ dt.hour < p.evEnd) := by
    rintro ⟨-, -, hlt⟩
    rw [hend] at hlt
    exact lt_irrefl _ hlt
  rw [h1, if_neg hno, add_zero]

theorem C2_witness :
    ((transformRow defaultParams [⟨2024, 1, 10⟩] 1 1 2 3 cw2Row).getD 1 defaultCell).value =
      CellValue.num (round3 ((cw2Row.getD 1 defaultCell).value.toRat * 1 +
        (if PyDateTime.date ⟨2024, 1, 10, 18, 30⟩ ∈ [(⟨2024, 1, 10⟩ : PyDate)] ∧
            defaultParams.evStart ≤ PyDateTime.hour ⟨2024, 1, 10, 18, 30⟩ ∧
            PyDateTime.hour ⟨2024, 1, 10, 18, 30⟩ < defaultParams.evEnd
         then defaultParams.evProfileKw else 0))) :=
  (C2_ev_window defaultParams [⟨2024, 1, 10⟩] 1 1 2 3 cw2Row ⟨2024, 1, 10, 18, 30⟩
    (by decide) (by decide) (by decide) (by decide)).1

/-- C3: a data row whose date cell is not a genuine datetime, or whose
power cell is not numeric, is left completely unmodified — the whole row,
hence both the power and the month cell, values and formats — and no
error is raised (the transformation is total and the loop handles every
row independently). -/
theorem C3_skip_leaves_row_unchanged (p : Params) (evDays : List PyDate)
    (factor : ℚ) (dc pc mc : Nat) (row : Row) (h : rowSkipped dc pc row) :
    transformRow p evDays factor dc pc mc row = row :=
  transformRow_skip p evDays factor dc pc mc row h

theorem C3_witness :
    transformRow defaultParams [] 1 1 2 3 c3Row = c3Row :=
  C3_skip_leaves_row_unchanged defaultParams [] 1 1 2 3 c3Row (Or.inl (by decide))

/-- C4: when row 2 lacks any of the three required headers, the run fails
with the ValueError before any data row is read or mutated — for every
input sheet, independent of data-row content — and no output sheet is
produced (the result is the error, not an `Except.ok`). -/
theorem C4_missing_header_fatal (p : Params) (factors : ℕ → ℚ) (picks : List ℕ)
    (ws : List Row)
    (h : headerCol (ws.getD 1 []) dateHeader = none ∨
      headerCol (ws.getD 1 []) powerHeader = none ∨
      headerCol (ws.getD 1 []) monthHeader = none) :
    modify_excel_file p factors picks ws = Except.error headerErrMsg :=
  modify_error p factors picks ws h

theorem C4_witness :
    modify_excel_file defaultParams (fun _ => 1) [] c4Sheet = Except.error headerErrMsg :=
  C4_missing_header_fatal defaultParams (fun _ => 1) [] c4Sheet
    (Or.inr (Or.inr (by decide)))

/-- C5: the sampled EV-day set is a subset of the distinct calendar dates
of the datetime-valued data rows, contains no duplicates, and has exactly
`floor(0.5 · N)` elements where `N` is the number of those distinct
dates; when `N = 0` the sample is empty and no row can ever satisfy the
EV condition. -/
theorem C5_ev_day_sample (picks : List ℕ) (ws : List Row) (dateCol : Nat) :
    (∀ d ∈ evDaysOf picks ws dateCol, d ∈ uniqueDaysOf ws dateCol) ∧
    (evDaysOf picks ws dateCol).Nodup ∧
    (evDaysOf picks ws dateCol).length = (uniqueDaysOf ws dateCol).length / 2 ∧
    (uniqueDaysOf ws dateCol = [] →
      evDaysOf picks ws dateCol = [] ∧
      ∀ (p : Params) (dt : PyDateTime), ¬ evApplies p (evDaysOf picks ws dateCol) dt) := by
  have hperm : (daySort (uniqueDaysOf ws dateCol)).Perm (uniqueDaysOf ws dateCol) :=
    List.perm_insertionSort _ _
  simp only [evDaysOf]
  refine ⟨fun d hd => hperm.mem_iff.mp (sample_mem _ _ _ _ hd),
    sample_nodup _ _ _ (hperm.nodup_iff.mpr (List.nodup_dedup _)),
    sample_length _ _ _ (by rw [hperm.length_eq]; exact Nat.div_le_self _ _),
    fun hnil => ?_⟩
  rw [hnil]
  refine ⟨by simp [daySort, sample], fun p dt h => ?_⟩
  simp [daySort, sample, evApplies] at h

theorem C5_witness :
    (evDaysOf [0] c4Sheet 1).length = (uniqueDaysOf c4Sheet 1).length / 2 :=
  (C5_ev_day_sample [0] c4Sheet 1).2.2.1

/-- C6: for every valid data row the month cell is overwritten with the
plain integer calendar month of the row's date value — an integer in
1..12 for any genuine datetime — regardless of the cell's prior content
(static value or formula alike). -/
theorem C6_month_overwrite (p : Params) (evDays : List PyDate) (factor : ℚ)
    (dc pc mc : Nat) (row : Row) (dt : PyDateTime)
    (hd : (row.getD (dc - 1) defaultCell).value = CellValue.date dt)
    (hp : (row.getD (pc - 1) defaultCell).value.isNumeric = true)
    (hmlen : mc - 1 < row.length) (hv : dt.Valid) :
    ((transformRow p evDays factor dc pc mc row).getD (mc - 1) defaultCell).value =
      CellValue.num dt.date.month ∧
    1 ≤ dt.date.month ∧ dt.date.month ≤ 12 :=
  ⟨transformRow_month p evDays factor dc pc mc row dt hd hp hmlen, hv.1, hv.2.1⟩

theorem C6_witness :
    ((transformRow defaultParams [] 1 1 2 3 cw1Row).getD 2 defaultCell).value =
      CellValue.num ((PyDateTime.date ⟨2024, 6, 15, 12, 0⟩).month : ℚ) :=
  (C6_month_overwrite defaultParams [] 1 1 2 3 cw1Row ⟨2024, 6, 15, 12, 0⟩
    (by decide) (by decide) (by decide) (by decide)).1

/-- A row holding a genuine datetime and a boolean power value. -/
def c9Row : Row :=
  [⟨CellValue.date ⟨2024, 3, 5, 10, 0⟩, "General"⟩,
   ⟨CellValue.bool true, "General"⟩,
   ⟨CellValue.num 7, "General"⟩]

/-- C9: a data row whose power cell holds a Python boolean passes the
`isinstance(v, (int, float))` check (bool is a subclass of int), so it is
NOT skipped: its power cell is overwritten with the noised numeric result
(True counting as 1) and its month cell is overwritten. -/
theorem C9_bool_power_not_skipped :
    ¬ rowSkipped 1 2 c9Row ∧
    ((transformRow defaultParams [] 1 1 2 3 c9Row).getD 1 defaultCell).value =
      CellValue.num 1 ∧
    ((transformRow defaultParams [] 1 1 2 3 c9Row).getD 2 defaultCell).value =
      CellValue.num 3 := by
  refine ⟨by decide, ?_, ?_⟩
  · have h1 := transformRow_power defaultParams [] 1 1 2 3 c9Row ⟨2024, 3, 5, 10, 0⟩
      (by decide) (by decide) (by decide) (by decide)
    have hev : ¬ evApplies defaultParams [] ⟨2024, 3, 5, 10, 0⟩ := by decide
    rw [h1, if_neg hev]
    have ht : (c9Row.getD 1 defaultCell).value.toRat = 1 := rfl
    rw [ht]
    have hr : round3 (1 * 1 + 0) = 1 := by
      unfold round3 roundHalfEvenZ
      norm_num
    rw [hr]
  · have h2 := transformRow_month defaultParams [] 1 1 2 3 c9Row ⟨2024, 3, 5, 10, 0⟩
      (by decide) (by decide) (by decide)
    rw [h2]
    norm_num [PyDateTime.date]

/-- Helper for C10: a scan that never matches yields no column. -/
theorem headerColAux_none (name : String) (l : List Cell) (s : Nat)
    (h : ∀ c ∈ l, cellText c ≠ name) : headerColAux name l s = none := by
  induction l generalizing s with
  | nil => rfl
  | cons c rest ih =>
      simp only [headerColAux, ih (s + 1) (fun x hx => h x (List.mem_cons_of_mem _ hx))]
      rw [if_neg (h c (List.mem_cons_self _ _))]

/-- Helper for C10: the scan returns the rightmost matching column. -/
theorem headerColAux_last (name : String) (l : List Cell) (s i : Nat)
    (hi : i < l.length)
    (hmatch : cellText (l.getD i defaultCell) = name)
    (hlast : ∀ j, i < j → j < l.length → cellText (l.getD j defaultCell) ≠ name) :
    headerColAux name l s = some (s + i) := by
  induction l generalizing s i with
  | nil => simp at hi
  | cons c rest ih =>
      cases i with
      | zero =>
          have hnone : headerColAux name rest (s + 1) = none := by
            apply headerColAux_none
            intro x hx
            obtain ⟨j, hj, hxj⟩ := List.mem_iff_getElem.mp hx
            have hl := hlast (j + 1) (Nat.succ_pos _) (by simpa using hj)
            rw [List.getD_cons_succ, List.getD_eq_getElem _ _ hj, hxj] at hl
            exact hl
          rw [List.getD_cons_zero] at hmatch
          simp only [headerColAux, hnone]
          rw [if_pos hmatch, Nat.add_zero]
      | succ j =>
          have hj : j < rest.length := by simpa using hi
          rw [List.getD_cons_succ] at hmatch
          have hlast2 : ∀ j2, j < j2 → j2 < rest.length →
              cellText (rest.getD j2 defaultCell) ≠ name := by
            intro j2 hj2 hj2len
            have hl := hlast (j2 + 1) (Nat.succ_lt_succ hj2) (by simpa using hj2len)
            rwa [List.getD_cons_succ] at hl
          simp only [headerColAux, ih (s + 1) j hj hmatch hlast2]
          congr 1
          omega

/-- C10: when a required header name appears in more than one column,
header resolution does not fail: the dict comprehension lets the later
column overwrite the earlier one, so the name maps to the RIGHTMOST
matching column (whose 1-based index the whole pipeline then uses for
every read and write of that field). -/
theorem C10_duplicate_header_rightmost (hdr : List Cell) (name : String) (i : Nat)
    (hi : i < hdr.length)
    (hmatch : cellText (hdr.getD i defaultCell) = name)
    (hlast : ∀ j, i < j → j < hdr.length → cellText (hdr.getD j defaultCell) ≠ name) :
    headerCol hdr name = some (i + 1) := by
  have h := headerColAux_last name hdr 1 i hi hmatch hlast
  rw [headerCol, h]
  congr 1
  omega

/-- A header row in which "month" appears twice (columns 2 and 4). -/
def c10Hdr : List Cell :=
  [⟨CellValue.str "Date and time", "General"⟩, ⟨CellValue.str "month", "General"⟩,
   ⟨CellValue.str "Active power (kW)", "General"⟩, ⟨CellValue.str "month", "General"⟩]

theorem C10_witness : headerCol c10Hdr "month" = some 4 :=
  C10_duplicate_header_rightmost c10Hdr "month" 3 (by decide) (by decide)
    (fun j h1 h2 => ((by simp [c10Hdr] at h2; omega : False).elim))

/-- The C8 scenario configuration: variation 0 % (factor pinned at 1),
EV load 3.6 kW, window 18–22. -/
def pC8 : Params := ⟨0, 18 / 5, 18, 22⟩

/-- The C8 source sheet: caption row, header row, and three data rows
(2024-01-10 18:30 / 2.0 kW, 2024-01-10 09:00 / 1.5 kW,
2024-01-11 19:00 / 3.0 kW). -/
def c8Sheet : List Row :=
  [[⟨CellValue.str "Load profile", "General"⟩],
   [⟨CellValue.str "Date and time", "General"⟩, ⟨CellValue.str "Active power (kW)", "General"⟩,
    ⟨CellValue.str "month", "General"⟩],
   [⟨CellValue.date ⟨2024, 1, 10, 18, 30⟩, "yyyy-mm-dd"⟩, ⟨CellValue.num 2, "0.00"⟩,
    ⟨CellValue.formula "=MONTH(A3)", "General"⟩],
   [⟨CellValue.date ⟨2024, 1, 10, 9, 0⟩, "yyyy-mm-dd"⟩, ⟨CellValue.num (3 / 2), "0.00"⟩,
    ⟨CellValue.formula "=MONTH(A4)", "General"⟩],
   [⟨CellValue.date ⟨2024, 1, 11, 19, 0⟩, "yyyy-mm-dd"⟩, ⟨CellValue.num 3, "0.00"⟩,
    ⟨CellValue.formula "=MONTH(A5)", "General"⟩]]

/-- The expected C8 output: powers 5.6 (= 28/5), 1.5, 3.0 and months all 1. -/
def c8Expected : List Row :=
  [[⟨CellValue.str "Load profile", "General"⟩],
   [⟨CellValue.str "Date and time", "General"⟩, ⟨CellValue.str "Active power (kW)", "General"⟩,
    ⟨CellValue.str "month", "General"⟩],
   [⟨CellValue.date ⟨2024, 1, 10, 18, 30⟩, "yyyy-mm-dd"⟩, ⟨CellValue.num (28 / 5), "0.00"⟩,
    ⟨CellValue.num 1, "General"⟩],
   [⟨CellValue.date ⟨2024, 1, 10, 9, 0⟩, "yyyy-mm-dd"⟩, ⟨CellValue.num (3 / 2), "0.00"⟩,
    ⟨CellValue.num 1, "General"⟩],
   [⟨CellValue.date ⟨2024, 1, 11, 19, 0⟩, "yyyy-mm-dd"⟩, ⟨CellValue.num 3, "0.00"⟩,
    ⟨CellValue.num 1, "General"⟩]]

/-- The concrete C8 run: with picks [0] the sampler selects 2024-01-10
(one of the two distinct days), and the run produces `c8Expected`. -/
theorem c8_run :
    modify_excel_file pC8 (fun _ => 1) [0] c8Sheet = Except.ok c8Expected := by
  rw [modify_ok pC8 (fun _ => 1) [0] c8Sheet 1 2 3 (by decide) (by decide) (by decide)]
  have hev : evDaysOf [0] c8Sheet 1 = [⟨2024, 1, 10⟩] := by decide
  rw [hev]
  simp only [c8Sheet, c8Expected, transformRows, transformRow, setCellValue, evApplies,
    CellValue.isNumeric, CellValue.toRat, defaultCell, PyDateTime.date, pC8,
    List.getD_cons_zero, List.getD_cons_succ, List.take, List.drop, List.set,
    List.mem_cons, List.mem_singleton, List.cons_append, List.nil_append]
  norm_num [round3, roundHalfEvenZ, PyDate.mk.injEq]

/-- C8: the end-to-end scenario — three rows (2024-01-10 18:30 / 2.0,
2024-01-10 09:00 / 1.5, 2024-01-11 19:00 / 3.0), EV-day sample fixed to
{2024-01-10} (via pick 0 of the two sorted distinct days), variation 0 %
so every factor is 1, defaults 3.6 kW and window (18, 22): output powers
are 5.6 (= 28/5), 1.5, 3.0 and every output month is 1. -/
theorem C8_end_to_end :
    evDaysOf [0] c8Sheet 1 = [⟨2024, 1, 10⟩] ∧
    modify_excel_file pC8 (fun _ => 1) [0] c8Sheet = Except.ok c8Expected ∧
    ((c8Expected.getD 2 []).getD 1 defaultCell).value = CellValue.num (28 / 5) ∧
    ((c8Expected.getD 3 []).getD 1 defaultCell).value = CellValue.num (3 / 2) ∧
    ((c8Expected.getD 4 []).getD 1 defaultCell).value = CellValue.num 3 ∧
    ((c8Expected.getD 2 []).getD 2 defaultCell).value = CellValue.num 1 ∧
    ((c8Expected.getD 3 []).getD 2 defaultCell).value = CellValue.num 1 ∧
    ((c8Expected.getD 4 []).getD 2 defaultCell).value = CellValue.num 1 :=
  ⟨by decide, c8_run, rfl, rfl, rfl, rfl, rfl, rfl⟩

/-- Helper: a successful run preserves the number of rows. -/
theorem modify_excel_file_length (p : Params) (factors : ℕ → ℚ) (picks : List ℕ)
    (ws : List Row) (dc pc mc : Nat) (out : List Row)
    (hd : headerCol (ws.getD 1 []) dateHeader = some dc)
    (hp : headerCol (ws.getD 1 []) powerHeader = some pc)
    (hm : headerCol (ws.getD 1 []) monthHeader = some mc)
    (hout : modify_excel_file p factors picks ws = Except.ok out) :
    out.length = ws.length := by
  rw [modify_ok p factors picks ws dc pc mc hd hp hm] at hout
  injection hout with hout
  subst hout
  rw [List.length_append, transformRows_length, List.length_take, List.length_drop]
  omega

/-- C7: a successful run writes only the power and month cells of data
rows — it preserves the row count, leaves row 1 and row 2 exactly as in
the source, leaves every cell of any other column of a data row exactly
as in the source (value and format), and leaves every skipped row
entirely unchanged. -/
theorem C7_frame (p : Params) (factors : ℕ → ℚ) (picks : List ℕ) (ws : List Row)
    (dc pc mc : Nat) (out : List Row)
    (hd : headerCol (ws.getD 1 []) dateHeader = some dc)
    (hp : headerCol (ws.getD 1 []) powerHeader = some pc)
    (hm : headerCol (ws.getD 1 []) monthHeader = some mc)
    (hout : modify_excel_file p factors picks ws = Except.ok out) :
    out.length = ws.length ∧
    (∀ i, i < 2 → out.getD i [] = ws.getD i []) ∧
    (∀ i j, 2 ≤ i → j ≠ pc - 1 → j ≠ mc - 1 →
      (out.getD i []).getD j defaultCell = (ws.getD i []).getD j defaultCell) ∧
    (∀ i, 2 ≤ i → rowSkipped dc pc (ws.getD i []) → out.getD i [] = ws.getD i []) := by
  have hidx := modify_excel_file_getElem? p factors picks ws dc pc mc out hd hp hm hout
  refine ⟨modify_excel_file_length p factors picks ws dc pc mc out hd hp hm hout,
    ?_, ?_, ?_⟩
  · intro i hi
    rw [List.getD_eq_getElem?_getD out, List.getD_eq_getElem?_getD ws, hidx i, if_pos hi]
  · intro i j h2 hj1 hj2
    have h := hidx i
    rw [if_neg (by omega)] at h
    rw [List.getD_eq_getElem?_getD out, List.getD_eq_getElem?_getD ws, h]
    cases hwsi : ws[i]? with
    | none => rfl
    | some r =>
        simp only [Option.map_some', Option.getD_some]
        exact transformRow_frame p (evDaysOf picks ws dc) (factors (i - 2)) dc pc mc r j hj1 hj2
  · intro i h2 hskip
    have h := hidx i
    rw [if_neg (by omega)] at h
    rw [List.getD_eq_getElem?_getD out, List.getD_eq_getElem?_getD ws, h]
    rw [List.getD_eq_getElem?_getD ws] at hskip
    cases hwsi : ws[i]? with
    | none => rfl
    | some r =>
        rw [hwsi] at hskip
        simp only [Option.getD_some] at hskip
        simp only [Option.map_some', Option.getD_some]
        exact transformRow_skip p (evDaysOf picks ws dc) (factors (i - 2)) dc pc mc r hskip

theorem C7_witness :
    c8Expected.getD 1 [] = c8Sheet.getD 1 [] :=
  (C7_frame pC8 (fun _ => 1) [0] c8Sheet 1 2 3 c8Expected
    (by decide) (by decide) (by decide) c8_run).2.1 1 (by omega)

end GenerateComunity
